import Mathlib

set_option maxHeartbeats 1000000

/-!
Shallow embedding of the travel-review backend (src/api/index.py).

Modelling conventions:
* MongoDB collections are lists of documents kept in insertion order
  (`insert_one` appends; `find_one` returns the first match; `update_one`
  rewrites the first match).
* A Mongo `ObjectId` is modelled as a natural number assigned from a
  monotone counter (`nextId`), since ObjectIds increase with creation
  time; requests carry an `Option Nat` review id (`none` covers a missing
  or empty identifier, both falsy in Python).
* JSON numbers are modelled as exact rationals; Python truthiness makes
  `None`, the empty string and `0` falsy.
* Each Flask handler becomes a function from its request data and the
  store state to the pair (HTTP status, new state); `get_reviews` returns
  the response list alongside the status.
-/

/-- A stored user document, as inserted by `signup`. -/
structure User where
  name : String
  email : String
  password : String
  address : Option String
  phone : Option String
deriving DecidableEq, Repr

/-- One entry of a review's `comments` array: `{user_email, comment}`. -/
structure CommentEntry where
  user_email : String
  comment : String
deriving DecidableEq, Repr

/-- A stored review document. -/
structure Review where
  id : Nat
  Name : String
  location : String
  purpose : String
  budget : String
  transport : String
  review : String
  images : List String
  rating : ℚ
  rating_count : Nat
  comments : List CommentEntry
deriving DecidableEq, Repr

/-- The document store: users and reviews collections, plus the ObjectId
counter for the reviews collection. -/
structure AppState where
  users : List User
  reviews : List Review
  nextId : Nat
deriving DecidableEq, Repr

/-- `reviews_collection.find_one({"_id": rid})`: first review with the id. -/
def findReview (l : List Review) (rid : Nat) : Option Review :=
  l.find? (fun r => r.id = rid)

/-- `reviews_collection.update_one({"_id": rid}, ...)`: rewrite the first
matching document, leave the rest untouched. -/
def updateOne : List Review → Nat → (Review → Review) → List Review
  | [], _, _ => []
  | r :: rest, rid, f => if r.id = rid then f r :: rest else r :: updateOne rest rid f

/-- Opaque model of `bcrypt.generate_password_hash`. -/
def hashPassword (p : String) : String := "bcrypt$" ++ p

/-- `POST /signup`: 400 on a missing/empty name, email or password;
409 when the email is already registered; otherwise insert and 201. -/
def signup (name email password address phone : Option String) (s : AppState) :
    Nat × AppState :=
  match name, email, password with
  | some n, some e, some p =>
    if n = "" ∨ e = "" ∨ p = "" then (400, s)
    else if s.users.any (fun u => u.email = e) then (409, s)
    else (201, { s with users := s.users ++ [⟨n, e, hashPassword p, address, phone⟩] })
  | _, _, _ => (400, s)

/-- The JSON body of `POST /add_review`; `none` marks an absent key. -/
structure ReviewRequest where
  Name : Option String
  location : Option String
  purpose : Option String
  budget : Option String
  transport : Option String
  review : Option String
  photo_urls : Option (List String)
deriving DecidableEq, Repr

/-- `POST /add_review`: the handler indexes the six required keys directly
(`data["Name"]`, ...), so a missing key raises `KeyError` before
`insert_one` runs — Flask turns that into a 500 with no insertion.
Otherwise the review is inserted with `rating = 0`, `rating_count = 0`,
`comments = []` and the handler answers 201. -/
def add_review (d : ReviewRequest) (s : AppState) : Nat × AppState :=
  match d.Name, d.location, d.purpose, d.budget, d.transport, d.review with
  | some nm, some loc, some pur, some bud, some tra, some rv =>
    (201, { s with
      reviews := s.reviews ++
        [⟨s.nextId, nm, loc, pur, bud, tra, rv, d.photo_urls.getD [], 0, 0, []⟩],
      nextId := s.nextId + 1 })
  | _, _, _, _, _, _ => (500, s)

/-- One equality filter of `get_reviews`: added to the Mongo query only
when the query argument is present and nonempty (Python truthiness). -/
def fieldMatches (arg : Option String) (v : String) : Bool :=
  match arg with
  | none => true
  | some a => if a = "" then true else v = a

/-- The Mongo query predicate assembled by `get_reviews`. -/
def reviewMatches (loc pur bud tra : Option String) (r : Review) : Bool :=
  fieldMatches loc r.location && fieldMatches pur r.purpose &&
    fieldMatches bud r.budget && fieldMatches tra r.transport

/-- `sort([("_id", -1)])`: descending by ObjectId. -/
def byIdDesc (a b : Review) : Prop := b.id ≤ a.id

/-- `sort([("rating", -1)])`: descending by stored mean rating. -/
def byRatingDesc (a b : Review) : Prop := b.rating ≤ a.rating

instance : DecidableRel byIdDesc :=
  fun a b => inferInstanceAs (Decidable (b.id ≤ a.id))

instance : DecidableRel byRatingDesc :=
  fun a b => inferInstanceAs (Decidable (b.rating ≤ a.rating))

instance : IsTotal Review byIdDesc := ⟨fun a b => Nat.le_total b.id a.id⟩

instance : IsTrans Review byIdDesc := ⟨fun _ _ _ hab hbc => le_trans hbc hab⟩

instance : IsTotal Review byRatingDesc := ⟨fun a b => le_total b.rating a.rating⟩

instance : IsTrans Review byRatingDesc := ⟨fun _ _ _ hab hbc => le_trans hbc hab⟩

/-- `GET /get_reviews`: filter by the provided equality filters, then sort
descending by `_id` (`sort=newest`) or by `rating` (`sort=rating`);
any other sort value leaves the Mongo natural (insertion) order. -/
def get_reviews (loc pur bud tra sortArg : Option String) (s : AppState) :
    List Review × Nat :=
  let matched := s.reviews.filter (reviewMatches loc pur bud tra)
  let sorted :=
    if sortArg = some "newest" then List.insertionSort byIdDesc matched
    else if sortArg = some "rating" then List.insertionSort byRatingDesc matched
    else matched
  (sorted, 200)

/-- `POST /add_comment` (JWT-authenticated, `identity` is the caller's
email): 400 when the review id or the comment text is missing/empty;
otherwise `update_one` pushes `{user_email, comment}` onto the target
review's `comments` array and the handler answers 200 — also when no
review matched the id, since `update_one` is then a no-op. -/
def add_comment (identity : String) (reviewId : Option Nat)
    (comment : Option String) (s : AppState) : Nat × AppState :=
  match reviewId, comment with
  | some rid, some c =>
    if c = "" then (400, s)
    else
      let pushed := updateOne s.reviews rid
        (fun r => { r with comments := r.comments ++ [⟨identity, c⟩] })
      (200, { s with reviews := pushed })
  | _, _ => (400, s)

/-- `POST /update_rating`: 400 when the review id or rating is falsy or
the rating lies outside [1,5]; 404 when `find_one` misses; otherwise fold
the rating into the running mean read from the `find_one` snapshot and
`$set` the new mean and count with `update_one`. -/
def update_rating (reviewId : Option Nat) (rating : Option ℚ) (s : AppState) :
    Nat × AppState :=
  match reviewId, rating with
  | some rid, some rt =>
    if rt = 0 then (400, s)
    else if ¬ (1 ≤ rt ∧ rt ≤ 5) then (400, s)
    else
      match findReview s.reviews rid with
      | none => (404, s)
      | some rev =>
        let new_rating_count := rev.rating_count + 1
        let new_avg_rating := (rev.rating * rev.rating_count + rt) / new_rating_count
        let written := updateOne s.reviews rid
          (fun r => { r with rating := new_avg_rating,
                             rating_count := new_rating_count })
        (200, { s with reviews := written })
  | _, _ => (400, s)

/-- The read phase of `update_rating`'s success path: the `find_one`
snapshot of the target review's running mean and count. -/
def ratingReadPhase (s : AppState) (rid : Nat) : Option (ℚ × Nat) :=
  (findReview s.reviews rid).map (fun rev => (rev.rating, rev.rating_count))

/-- The write phase of `update_rating`'s success path: the `update_one`
call, whose `$set` values are computed from a previously read snapshot
`snap` — not from the document found at write time. -/
def ratingWritePhase (s : AppState) (rid : Nat) (snap : ℚ × Nat) (rt : ℚ) :
    AppState :=
  let written := updateOne s.reviews rid
    (fun r => { r with rating := (snap.1 * snap.2 + rt) / (snap.2 + 1),
                       rating_count := snap.2 + 1 })
  { s with reviews := written }

/-- A sequence of `update_rating` submissions against one review. -/
def submitRatings (rid : Nat) (rs : List ℚ) (s : AppState) : AppState :=
  rs.foldl (fun st x => (update_rating (some rid) (some x) st).2) s

/-- The empty store. -/
def emptyState : AppState := ⟨[], [], 0⟩

/-- A concrete review document used in concrete scenarios. -/
def sampleReview : Review :=
  ⟨0, "Ann", "Goa", "leisure", "low", "train", "nice", [], 0, 0, []⟩

/-- A store holding just `sampleReview`. -/
def sampleState : AppState := ⟨[], [sampleReview], 1⟩

/-- A store holding one registered user with email `a@b.c`. -/
def dupState : AppState := ⟨[⟨"Ann", "a@b.c", hashPassword "pw", none, none⟩], [], 0⟩

/-! ## Library lemmas about the first-match store operations -/

theorem find?_append_none {α : Type} (p : α → Bool) (l₁ l₂ : List α)
    (h : l₁.find? p = none) : (l₁ ++ l₂).find? p = l₂.find? p := by
  induction l₁ with
  | nil => rfl
  | cons a l ih =>
    rw [List.find?_eq_none] at h
    have ha : p a = false := by
      have := h a (by simp)
      simpa using this
    have hl : l.find? p = none := by
      rw [List.find?_eq_none]
      intro x hx
      exact h x (by simp [hx])
    simp [List.find?_cons, ha, ih hl]

theorem findReview_updateOne (l : List Review) (rid : Nat) (f : Review → Review)
    (hid : ∀ r, (f r).id = r.id) :
    findReview (updateOne l rid f) rid = (findReview l rid).map f := by
  induction l with
  | nil => rfl
  | cons r rest ih =>
    by_cases h : r.id = rid
    · simp [updateOne, findReview, List.find?_cons, h, hid r]
    · simp [updateOne, findReview, List.find?_cons, h] at ih ⊢
      exact ih

theorem updateOne_of_none (l : List Review) (rid : Nat) (f : Review → Review)
    (h : findReview l rid = none) : updateOne l rid f = l := by
  induction l with
  | nil => rfl
  | cons r rest ih =>
    rw [findReview, List.find?_eq_none] at h
    have hr : ¬ r.id = rid := by simpa using h r (by simp)
    have hrest : findReview rest rid = none := by
      rw [findReview, List.find?_eq_none]
      intro x hx
      exact h x (by simp [hx])
    simp [updateOne, hr, ih hrest]

/-! ## Claim theorems -/

/-- C2: every `update_rating` request whose rating value lies outside the
inclusive range [1,5] fails with HTTP 400 (InvalidInput) and leaves the
whole store — in particular the targeted review's rating and
rating_count — unchanged. -/
theorem update_rating_out_of_range (reviewId : Option Nat) (rt : ℚ)
    (s : AppState) (h : ¬ (1 ≤ rt ∧ rt ≤ 5)) :
    update_rating reviewId (some rt) s = (400, s) := by
  cases reviewId with
  | none => rfl
  | some rid =>
    by_cases h0 : rt = 0
    · simp [update_rating, h0]
    · simp [update_rating, h0, h]

/-- Witness for C2 at rating 7. -/
theorem update_rating_out_of_range_witness :
    ¬ ((1 : ℚ) ≤ 7 ∧ (7 : ℚ) ≤ 5) ∧
    update_rating (some 0) (some 7) emptyState = (400, emptyState) :=
  ⟨by decide, update_rating_out_of_range (some 0) 7 emptyState (by decide)⟩

/-- C8: every `update_rating` request with an in-range rating whose review
identifier does not resolve to a stored review fails with HTTP 404
(NotFound) and leaves the store unchanged. -/
theorem update_rating_review_not_found (rid : Nat) (rt : ℚ) (s : AppState)
    (h1 : 1 ≤ rt) (h5 : rt ≤ 5) (hf : findReview s.reviews rid = none) :
    update_rating (some rid) (some rt) s = (404, s) := by
  have h0 : rt ≠ 0 := (lt_of_lt_of_le zero_lt_one h1).ne'
  simp [update_rating, h0, h1, h5, hf]

/-- Witness for C8 at rating 3 against the empty store. -/
theorem update_rating_review_not_found_witness :
    (1 : ℚ) ≤ 3 ∧ (3 : ℚ) ≤ 5 ∧ findReview emptyState.reviews 0 = none ∧
    update_rating (some 0) (some 3) emptyState = (404, emptyState) :=
  ⟨by decide, by decide, by decide,
    update_rating_review_not_found 0 3 emptyState (by decide) (by decide) (by decide)⟩

/-- C3 counterexample: `add_comment` with a review id that resolves to no
stored review answers HTTP 200, not the claimed 404 — `update_one` simply
matches nothing and the handler still reports success. -/
theorem add_comment_missing_review_returns_200 :
    (add_comment "u@b.c" (some 5) (some "hi") sampleState).1 = 200 ∧
    (add_comment "u@b.c" (some 5) (some "hi") sampleState).1 ≠ 404 := by
  decide

/-- C3 amended: when the review id resolves to no stored review (and the
comment text is nonempty), `add_comment` returns HTTP 200 with the store
unchanged, so no comment is stored anywhere; and it fails with HTTP 400
(InvalidInput) whenever the review id or the comment text is missing or
empty. -/
theorem add_comment_absent_review_semantics :
    (∀ (ident c : String) (rid : Nat) (s : AppState), c ≠ "" →
      findReview s.reviews rid = none →
      add_comment ident (some rid) (some c) s = (200, s)) ∧
    (∀ (ident : String) (reviewId : Option Nat) (comment : Option String)
      (s : AppState), reviewId = none ∨ comment = none ∨ comment = some "" →
      add_comment ident reviewId comment s = (400, s)) := by
  constructor
  · intro ident c rid s hc hf
    have hu := updateOne_of_none s.reviews rid
      (fun r => { r with comments := r.comments ++ [⟨ident, c⟩] }) hf
    simp [add_comment, hc, hu]
  · rintro ident reviewId comment s (h | h | h) <;> subst h
    · cases comment <;> rfl
    · cases reviewId <;> rfl
    · cases reviewId <;> simp [add_comment]

/-- Witness for C3's amended statement. -/
theorem add_comment_absent_review_semantics_witness :
    ("hi" : String) ≠ "" ∧ findReview sampleState.reviews 5 = none ∧
    add_comment "u@b.c" (some 5) (some "hi") sampleState = (200, sampleState) ∧
    add_comment "u@b.c" none (some "hi") sampleState = (400, sampleState) :=
  ⟨by decide, by decide,
    add_comment_absent_review_semantics.1 "u@b.c" "hi" 5 sampleState
      (by decide) (by decide),
    add_comment_absent_review_semantics.2 "u@b.c" none (some "hi") sampleState
      (Or.inl rfl)⟩

/-- C9: two successive successful `add_comment` appends of `c1` then `c2`
to the same stored review leave its comment sequence equal to the old
sequence followed by `[c1, c2]` in that order — previously stored comments
are neither modified nor removed. -/
theorem add_comment_preserves_order (u1 u2 c1 c2 : String) (rid : Nat)
    (s : AppState) (rev : Review) (h1 : c1 ≠ "") (h2 : c2 ≠ "")
    (hf : findReview s.reviews rid = some rev) :
    (add_comment u1 (some rid) (some c1) s).1 = 200 ∧
    (add_comment u2 (some rid) (some c2)
      (add_comment u1 (some rid) (some c1) s).2).1 = 200 ∧
    findReview ((add_comment u2 (some rid) (some c2)
        (add_comment u1 (some rid) (some c1) s).2).2).reviews rid =
      some { rev with comments := rev.comments ++ [⟨u1, c1⟩, ⟨u2, c2⟩] } := by
  refine ⟨by simp [add_comment, h1], by simp [add_comment, h1, h2], ?_⟩
  have e1 := findReview_updateOne s.reviews rid
    (fun r => { r with comments := r.comments ++ [⟨u1, c1⟩] }) (fun r => rfl)
  have e2 := findReview_updateOne
    (updateOne s.reviews rid (fun r => { r with comments := r.comments ++ [⟨u1, c1⟩] }))
    rid (fun r => { r with comments := r.comments ++ [⟨u2, c2⟩] }) (fun r => rfl)
  simp [add_comment, h1, h2, e2, e1, hf]

/-- Witness for C9 on the singleton store. -/
theorem add_comment_preserves_order_witness :
    ("a" : String) ≠ "" ∧ ("b" : String) ≠ "" ∧
    findReview sampleState.reviews 0 = some sampleReview ∧
    findReview ((add_comment "v@b.c" (some 0) (some "b")
        (add_comment "u@b.c" (some 0) (some "a") sampleState).2).2).reviews 0 =
      some { sampleReview with comments :=
        sampleReview.comments ++ [⟨"u@b.c", "a"⟩, ⟨"v@b.c", "b"⟩] } :=
  ⟨by decide, by decide, by decide,
    (add_comment_preserves_order "u@b.c" "v@b.c" "a" "b" 0 sampleState
      sampleReview (by decide) (by decide) (by decide)).2.2⟩

/-- The success path of `update_rating` is exactly its `find_one` read
followed by the `update_one` write computed from that snapshot. -/
theorem update_rating_success (rid : Nat) (rt : ℚ) (s : AppState) (rev : Review)
    (h1 : 1 ≤ rt) (h5 : rt ≤ 5) (hf : findReview s.reviews rid = some rev) :
    update_rating (some rid) (some rt) s =
      (200, ratingWritePhase s rid (rev.rating, rev.rating_count) rt) := by
  have h0 : rt ≠ 0 := (lt_of_lt_of_le zero_lt_one h1).ne'
  simp [update_rating, ratingWritePhase, h0, h1, h5, hf, Nat.cast_add, Nat.cast_one]

/-- Folding a sequence of in-range submissions through `update_rating`
increments the stored count by the sequence length and grows the stored
(rating × count) product by the sum of the submitted ratings. -/
theorem submitRatings_invariant (rid : Nat) (rs : List ℚ)
    (hrs : ∀ x ∈ rs, 1 ≤ x ∧ x ≤ 5) :
    ∀ (s : AppState) (rev : Review), findReview s.reviews rid = some rev →
    ∃ rev', findReview (submitRatings rid rs s).reviews rid = some rev' ∧
      rev'.rating_count = rev.rating_count + rs.length ∧
      (rev'.rating * rev'.rating_count : ℚ) = rev.rating * rev.rating_count + rs.sum ∧
      (rs = [] → rev' = rev) := by
  induction rs with
  | nil =>
    intro s rev hf
    exact ⟨rev, hf, by simp, by simp, fun _ => rfl⟩
  | cons x xs ih =>
    intro s rev hf
    have hx := hrs x (List.mem_cons_self x xs)
    have hstep := update_rating_success rid x s rev hx.1 hx.2 hf
    have hs1 : submitRatings rid (x :: xs) s =
        submitRatings rid xs (update_rating (some rid) (some x) s).2 := rfl
    rw [hs1, hstep]
    have hf1 : findReview (ratingWritePhase s rid (rev.rating, rev.rating_count) x).reviews rid =
        some { rev with
          rating := (rev.rating * rev.rating_count + x) / (rev.rating_count + 1),
          rating_count := rev.rating_count + 1 } := by
      have hu := findReview_updateOne s.reviews rid
        (fun r => { r with
          rating := (rev.rating * rev.rating_count + x) / (rev.rating_count + 1),
          rating_count := rev.rating_count + 1 }) (fun r => rfl)
      simp [ratingWritePhase, hu, hf]
    obtain ⟨rev', hfind, hcount, hsum, -⟩ :=
      ih (fun y hy => hrs y (List.mem_cons_of_mem x hy)) _ _ hf1
    have hne : ((rev.rating_count : ℚ) + 1) ≠ 0 := by positivity
    refine ⟨rev', hfind, ?_, ?_, ?_⟩
    · rw [hcount]; simp; omega
    · rw [hsum]
      simp only [Nat.cast_add, Nat.cast_one, List.sum_cons]
      rw [div_mul_cancel₀ _ hne]
      ring
    · intro h; simp at h

/-- C1: a review freshly created by `add_review` starts at rating 0 and
count 0, and after any sequence of in-range `update_rating` submissions
`r1..rn` its stored rating equals `sum(ri)/n` and its stored rating_count
equals `n`. -/
theorem rating_mean_after_submissions (nm loc pur bud tra rv : String)
    (urls : Option (List String)) (s : AppState)
    (hfresh : ∀ r ∈ s.reviews, r.id ≠ s.nextId)
    (rs : List ℚ) (hrs : ∀ x ∈ rs, 1 ≤ x ∧ x ≤ 5) :
    ∃ rev', findReview (submitRatings s.nextId rs
        (add_review ⟨some nm, some loc, some pur, some bud, some tra, some rv, urls⟩
          s).2).reviews s.nextId = some rev' ∧
      rev'.rating = rs.sum / (rs.length : ℚ) ∧ rev'.rating_count = rs.length := by
  have hnone : s.reviews.find? (fun r => r.id = s.nextId) = none := by
    rw [List.find?_eq_none]
    intro r hr
    simpa using hfresh r hr
  have hfind : findReview
      (add_review ⟨some nm, some loc, some pur, some bud, some tra, some rv, urls⟩
        s).2.reviews s.nextId =
      some ⟨s.nextId, nm, loc, pur, bud, tra, rv, urls.getD [], 0, 0, []⟩ := by
    show findReview (s.reviews ++
      [⟨s.nextId, nm, loc, pur, bud, tra, rv, urls.getD [], 0, 0, []⟩]) s.nextId = _
    rw [findReview, find?_append_none _ _ _ hnone]
    simp
  obtain ⟨rev', hfind', hcount, hsum, hnil⟩ :=
    submitRatings_invariant s.nextId rs hrs _ _ hfind
  simp only [List.length_nil] at hcount hsum
  refine ⟨rev', hfind', ?_, by simpa using hcount⟩
  rcases rs with - | ⟨y, ys⟩
  · have : rev' = ⟨s.nextId, nm, loc, pur, bud, tra, rv, urls.getD [], 0, 0, []⟩ :=
      hnil rfl
    simp [this]
  · have hlen : ((y :: ys).length : ℚ) ≠ 0 := by
      rw [Nat.cast_ne_zero]
      simp
    rw [eq_div_iff hlen]
    have hcount' : (rev'.rating_count : ℚ) = ((y :: ys).length : ℚ) := by
      rw [hcount]; push_cast; ring
    calc rev'.rating * ((y :: ys).length : ℚ)
        = rev'.rating * (rev'.rating_count : ℚ) := by rw [hcount']
      _ = (y :: ys).sum := by rw [hsum]; push_cast; ring

/-- Witness for C1: ratings 4 then 2 on a fresh review give mean 3, count 2. -/
theorem rating_mean_after_submissions_witness :
    (∀ r ∈ emptyState.reviews, r.id ≠ emptyState.nextId) ∧
    (∀ x ∈ ([4, 2] : List ℚ), 1 ≤ x ∧ x ≤ 5) ∧
    ∃ rev', findReview (submitRatings emptyState.nextId [4, 2]
        (add_review ⟨some "A", some "B", some "C", some "D", some "E", some "F", none⟩
          emptyState).2).reviews emptyState.nextId = some rev' ∧
      rev'.rating = 3 ∧ rev'.rating_count = 2 := by
  refine ⟨by simp [emptyState], by decide, ?_⟩
  obtain ⟨rev', h1, h2, h3⟩ :=
    rating_mean_after_submissions "A" "B" "C" "D" "E" "F" none emptyState
      (by simp [emptyState]) [4, 2] (by decide)
  refine ⟨rev', h1, ?_, h3⟩
  rw [h2]
  norm_num

/-- C4 (lost update): both invocations read the same `find_one` snapshot
before either `update_one` write lands, and the second write overwrites
the first — the interleaved execution records only one of the two
ratings (count 1, mean 2), while the sequential executions record both
(count 2, mean 3). -/
theorem update_rating_lost_update :
    (findReview (update_rating (some 0) (some 2)
        (update_rating (some 0) (some 4) sampleState).2).2.reviews 0).map
      (fun r => (r.rating, r.rating_count)) = some (3, 2) ∧
    ratingReadPhase sampleState 0 = some (0, 0) ∧
    (findReview (ratingWritePhase (ratingWritePhase sampleState 0 (0, 0) 4)
        0 (0, 0) 2).reviews 0).map
      (fun r => (r.rating, r.rating_count)) = some (2, 1) := by
  refine ⟨?_, rfl, ?_⟩
  · norm_num [update_rating, ratingWritePhase, findReview, updateOne,
      sampleState, sampleReview, List.find?]
  · norm_num [ratingWritePhase, findReview, updateOne,
      sampleState, sampleReview, List.find?]

/-- C5 counterexample: a signup request carrying an already-registered
email but no name is rejected by the missing-fields check with HTTP 400,
not with the claimed HTTP 409 Conflict. -/
theorem signup_duplicate_email_not_conflict :
    (∃ u ∈ dupState.users, u.email = "a@b.c") ∧
    (signup none (some "a@b.c") (some "pw") none none dupState).1 = 400 ∧
    (signup none (some "a@b.c") (some "pw") none none dupState).1 ≠ 409 := by
  decide

/-- C5 amended: every signup request with nonempty name, email and
password whose email equals a stored user's email yields HTTP 409 and
inserts nothing; and every signup — whatever its fields — preserves the
invariant that email is a unique key across the stored users. -/
theorem signup_unique_email_semantics :
    (∀ (n e p : String) (a ph : Option String) (s : AppState),
      n ≠ "" → e ≠ "" → p ≠ "" → (∃ u ∈ s.users, u.email = e) →
      signup (some n) (some e) (some p) a ph s = (409, s)) ∧
    (∀ (name email password a ph : Option String) (s : AppState),
      (s.users.map User.email).Nodup →
      (((signup name email password a ph s).2).users.map User.email).Nodup) := by
  constructor
  · intro n e p a ph s hn he hp hex
    have hany : s.users.any (fun u => u.email = e) = true := by
      rw [List.any_eq_true]
      obtain ⟨u, hu, hue⟩ := hex
      exact ⟨u, hu, by simp [hue]⟩
    simp [signup, hn, he, hp, hany]
  · intro name email password a ph s hnd
    rcases name with - | n <;> rcases email with - | e <;>
      rcases password with - | p <;> try exact hnd
    by_cases h1 : n = "" ∨ e = "" ∨ p = ""
    · simpa [signup, h1] using hnd
    · by_cases h2 : s.users.any (fun u => u.email = e) = true
      · simpa [signup, h1, h2] using hnd
      · rw [Bool.not_eq_true, List.any_eq_false] at h2
        have hne : ∀ u ∈ s.users, u.email ≠ e := by
          intro u hu
          simpa using h2 u hu
        have : (signup (some n) (some e) (some p) a ph s).2.users =
            s.users ++ [⟨n, e, hashPassword p, a, ph⟩] := by
          simp [signup, h1, List.any_eq_false.mpr h2]
        rw [this, List.map_append, List.nodup_append]
        refine ⟨hnd, by simp, ?_⟩
        intro x hx hx2
        simp only [List.map_cons, List.map_nil, List.mem_singleton] at hx2
        obtain ⟨u, hu, hux⟩ := List.mem_map.mp hx
        exact hne u hu (by rw [hux, hx2])

/-- Witness for C5's amended statement. -/
theorem signup_unique_email_semantics_witness :
    ("Bob" : String) ≠ "" ∧ ("a@b.c" : String) ≠ "" ∧ ("pw2" : String) ≠ "" ∧
    (∃ u ∈ dupState.users, u.email = "a@b.c") ∧
    signup (some "Bob") (some "a@b.c") (some "pw2") none none dupState =
      (409, dupState) ∧
    (dupState.users.map User.email).Nodup ∧
    (((signup (some "Bob") (some "x@y.z") (some "pw2") none none
        dupState).2).users.map User.email).Nodup :=
  ⟨by decide, by decide, by decide, by decide,
    signup_unique_email_semantics.1 "Bob" "a@b.c" "pw2" none none dupState
      (by decide) (by decide) (by decide) (by decide),
    by decide,
    signup_unique_email_semantics.2 (some "Bob") (some "x@y.z") (some "pw2")
      none none dupState (by decide)⟩

/-- The Mongo equality filter holds exactly when the review's field equals
every provided nonempty filter value. -/
theorem fieldMatches_iff (arg : Option String) (v : String) :
    fieldMatches arg v = true ↔ ∀ x, arg = some x → x ≠ "" → v = x := by
  cases arg with
  | none => simp [fieldMatches]
  | some a =>
    by_cases h : a = ""
    · subst h
      constructor
      · intro _ x hx hxne
        exfalso
        apply hxne
        injection hx with hx'
        exact hx'.symm
      · intro _
        simp [fieldMatches]
    · simp only [fieldMatches, if_neg h, decide_eq_true_eq]
      constructor
      · intro hv x hx hxne
        injection hx with hx'
        rw [← hx']
        exact hv
      · intro hall
        exact hall a rfl h

/-- C6: with no filters `get_reviews` returns every stored review, and
with any subset of the equality filters it returns exactly the stored
reviews whose corresponding fields equal the supplied values — absent
(or empty, hence falsy) filters match all. -/
theorem get_reviews_filter_exact :
    (∀ s : AppState, (get_reviews none none none none none s).1 = s.reviews) ∧
    (∀ (loc pur bud tra : Option String) (s : AppState) (r : Review),
      r ∈ (get_reviews loc pur bud tra none s).1 ↔
        r ∈ s.reviews ∧ (∀ v, loc = some v → v ≠ "" → r.location = v) ∧
          (∀ v, pur = some v → v ≠ "" → r.purpose = v) ∧
          (∀ v, bud = some v → v ≠ "" → r.budget = v) ∧
          (∀ v, tra = some v → v ≠ "" → r.transport = v)) := by
  constructor
  · intro s
    simp [get_reviews, reviewMatches, fieldMatches]
  · intro loc pur bud tra s r
    simp only [get_reviews,
      if_neg (by simp : ¬ (none : Option String) = some "newest"),
      if_neg (by simp : ¬ (none : Option String) = some "rating")]
    rw [List.mem_filter]
    simp only [reviewMatches, Bool.and_eq_true, fieldMatches_iff]
    tauto

/-- Witness for C6 on the singleton store with a matching location filter. -/
theorem get_reviews_filter_exact_witness :
    (get_reviews none none none none none sampleState).1 = sampleState.reviews ∧
    (sampleReview ∈ (get_reviews (some "Goa") none none none none sampleState).1 ↔
      sampleReview ∈ sampleState.reviews ∧
        (∀ v, (some "Goa" : Option String) = some v → v ≠ "" →
          sampleReview.location = v) ∧
        (∀ v, (none : Option String) = some v → v ≠ "" →
          sampleReview.purpose = v) ∧
        (∀ v, (none : Option String) = some v → v ≠ "" →
          sampleReview.budget = v) ∧
        (∀ v, (none : Option String) = some v → v ≠ "" →
          sampleReview.transport = v)) :=
  ⟨get_reviews_filter_exact.1 sampleState,
    get_reviews_filter_exact.2 (some "Goa") none none none sampleState sampleReview⟩

/-- Inserting an element related to nothing in the list lands at the end. -/
theorem orderedInsert_all_not {α : Type} (r : α → α → Prop) [DecidableRel r]
    (a : α) (l : List α) (h : ∀ b ∈ l, ¬ r a b) :
    l.orderedInsert r a = l ++ [a] := by
  induction l with
  | nil => rfl
  | cons b bs ih =>
    rw [List.orderedInsert, if_neg (h b (by simp))]
    simp [ih (fun c hc => h c (by simp [hc]))]

/-- Sorting a list with strictly increasing ids descending by id reverses it. -/
theorem insertionSort_byIdDesc_reverse (l : List Review)
    (h : List.Pairwise (fun a b => a.id < b.id) l) :
    List.insertionSort byIdDesc l = l.reverse := by
  induction l with
  | nil => rfl
  | cons a l ih =>
    rw [List.insertionSort, ih (List.Pairwise.of_cons h)]
    rw [orderedInsert_all_not byIdDesc a l.reverse ?ha]
    · simp
    case ha =>
      intro b hb
      rw [List.mem_reverse] at hb
      have hab := (List.pairwise_cons.mp h).1 b hb
      simp only [byIdDesc]
      omega

/-- C7: `sort=rating` returns the matching reviews in non-increasing order
of their stored mean rating (a permutation of the matching set), and
`sort=newest` returns the matching reviews in reverse creation order
(the store is kept in creation order with strictly increasing ObjectIds). -/
theorem get_reviews_sort_semantics :
    (∀ (loc pur bud tra : Option String) (s : AppState),
      List.Sorted byRatingDesc (get_reviews loc pur bud tra (some "rating") s).1 ∧
      (get_reviews loc pur bud tra (some "rating") s).1.Perm
        (s.reviews.filter (reviewMatches loc pur bud tra))) ∧
    (∀ (loc pur bud tra : Option String) (s : AppState),
      List.Pairwise (fun a b => a.id < b.id) s.reviews →
      (get_reviews loc pur bud tra (some "newest") s).1 =
        (s.reviews.filter (reviewMatches loc pur bud tra)).reverse) := by
  constructor
  · intro loc pur bud tra s
    simp only [get_reviews,
      if_neg (by decide : ¬ (some "rating" : Option String) = some "newest"),
      if_pos rfl]
    exact ⟨List.sorted_insertionSort byRatingDesc _, List.perm_insertionSort byRatingDesc _⟩
  · intro loc pur bud tra s hp
    have hp' : List.Pairwise (fun a b => a.id < b.id)
        (s.reviews.filter (reviewMatches loc pur bud tra)) :=
      List.Pairwise.sublist (List.filter_sublist _) hp
    simp only [get_reviews, if_pos rfl]
    exact insertionSort_byIdDesc_reverse _ hp'

/-- Witness for C7 on the singleton store. -/
theorem get_reviews_sort_semantics_witness :
    (List.Sorted byRatingDesc
        (get_reviews none none none none (some "rating") sampleState).1 ∧
      (get_reviews none none none none (some "rating") sampleState).1.Perm
        (sampleState.reviews.filter (reviewMatches none none none none))) ∧
    (List.Pairwise (fun a b => a.id < b.id) sampleState.reviews ∧
      (get_reviews none none none none (some "newest") sampleState).1 =
        (sampleState.reviews.filter (reviewMatches none none none none)).reverse) :=
  ⟨get_reviews_sort_semantics.1 none none none none sampleState,
    ⟨by simp [sampleState],
      get_reviews_sort_semantics.2 none none none none sampleState
        (by simp [sampleState])⟩⟩

/-- C10: an `add_review` body missing any of the six required keys makes
the handler's direct dictionary indexing fail before `insert_one` is
reached: the review store is unchanged and no 201 success is produced. -/
theorem add_review_missing_key (d : ReviewRequest) (s : AppState)
    (h : d.Name = none ∨ d.location = none ∨ d.purpose = none ∨
      d.budget = none ∨ d.transport = none ∨ d.review = none) :
    (add_review d s).1 = 500 ∧ (add_review d s).2 = s ∧
      (add_review d s).1 ≠ 201 := by
  obtain ⟨nm, lo, pu, bu, tr, rv, ur⟩ := d
  cases nm <;> cases lo <;> cases pu <;> cases bu <;> cases tr <;> cases rv <;>
    simp_all [add_review]

/-- Witness for C10: a body without the `Name` key. -/
theorem add_review_missing_key_witness :
    (add_review ⟨none, some "B", some "C", some "D", some "E", some "F", none⟩
      emptyState).1 = 500 ∧
    (add_review ⟨none, some "B", some "C", some "D", some "E", some "F", none⟩
      emptyState).2 = emptyState ∧
    (add_review ⟨none, some "B", some "C", some "D", some "E", some "F", none⟩
      emptyState).1 ≠ 201 :=
  add_review_missing_key _ emptyState (Or.inl rfl)
